import Mathlib

/-!
Verification of the CAN-SLIM screener core (`src/modules/screener.py`,
`src/modules/models.py`, thresholds from `src/config.py`).

Modelling choices:
* Prices, volumes, growth rates and thresholds are rationals (`ℚ`), giving
  exact arithmetic for the threshold comparisons the code performs.
* A multi-indexed price DataFrame is a list of `(ticker, PriceSeries)` pairs;
  a ticker appears in the pandas index only when it has at least one row, and
  real inputs carry one group per ticker.
* pandas behaviours that the code relies on are modelled explicitly:
  `groupby(level=0)` sorts the group keys (hence the extra sort in the price
  filter); `Index.unique()` keeps first occurrences; `df.loc[list]` returns
  the rows of each listed ticker in list order; `rolling(w).mean()` is
  defined only once `w` bars exist.
* Python `dict` fields that may be absent and float fields that may be `None`
  are `Option`s; Python truthiness of a numeric value is "present and
  non-zero".
-/

set_option maxRecDepth 100000

namespace CanSlim

abbrev Ticker := String

/-- Per-ticker chronological series; only the `Close` and `Volume` columns
are consumed by the technical filters. -/
structure PriceSeries where
  close : List ℚ
  volume : List ℚ
deriving DecidableEq

/-- A multi-indexed (ticker, date) price DataFrame, grouped per ticker. -/
abbrev MarketData := List (Ticker × PriceSeries)

/-- The screening thresholds of `src/config.py` (class `Config`). -/
structure Config where
  MIN_PRICE : ℚ
  MIN_VOL_AVG : ℚ
  NEAR_HIGH_PCT : ℚ
  EPS_GROWTH_THRESHOLD : ℚ
  REV_GROWTH_THRESHOLD : ℚ
  ROE_THRESHOLD : ℚ
  PROFIT_TARGET_PCT : ℚ
  STOP_LOSS_PCT : ℚ
  MA_STOP_LOSS_PCT : ℚ
  MA_200_PERIOD : ℕ

/-- The default values assigned in `src/config.py`. -/
def defaultConfig : Config where
  MIN_PRICE := 10.0
  MIN_VOL_AVG := 200000
  NEAR_HIGH_PCT := 0.85
  EPS_GROWTH_THRESHOLD := 0.20
  REV_GROWTH_THRESHOLD := 0.20
  ROE_THRESHOLD := 0.15
  PROFIT_TARGET_PCT := 0.20
  STOP_LOSS_PCT := 0.07
  MA_STOP_LOSS_PCT := 0.03
  MA_200_PERIOD := 200

/-! ### pandas series primitives -/

/-- `series.iloc[-1]` (the code only evaluates it on non-empty series). -/
def lastD (l : List ℚ) : ℚ := l.getLastD 0

/-- `series.iloc[0]` (the code only evaluates it on non-empty series). -/
def firstD (l : List ℚ) : ℚ := l.headD 0

/-- `series.tail(n)`: the trailing `n` entries (all of them when shorter). -/
def tailN (n : ℕ) (l : List ℚ) : List ℚ := l.drop (l.length - n)

/-- `series.mean()` (callers only take means of non-empty series). -/
def mean (l : List ℚ) : ℚ := l.sum / (l.length : ℚ)

/-- `series.max()` (callers only take maxima of non-empty series). -/
def maxD : List ℚ → ℚ
  | [] => 0
  | a :: t => t.foldl max a

/-- `series.rolling(window=w).mean().iloc[-1]` combined with the `pd.notna`
check: defined exactly when at least `w` bars exist. -/
def smaLast (w : ℕ) (close : List ℚ) : Option ℚ :=
  if w ≤ close.length then some (mean (tailN w close)) else none

/-- `(prices.iloc[-1] - prices.iloc[0]) / prices.iloc[0]`. -/
def return1y (close : List ℚ) : ℚ := (lastD close - firstD close) / firstD close

/-! ### DataFrame primitives -/

/-- `data.loc[t]` for a ticker `t` of the index: its series, when present. -/
def lookupSeries (data : MarketData) (t : Ticker) : Option PriceSeries :=
  (data.find? (fun p => p.1 == t)).map Prod.snd

/-- Total version of `data.loc[t]`; callers only use it for present tickers. -/
def getSeries (data : MarketData) (t : Ticker) : PriceSeries :=
  (lookupSeries data t).getD ⟨[], []⟩

/-- Helper for `Index.unique()`: keep first occurrences, skipping `seen`. -/
def uniqueKeysAux (seen : List Ticker) : List Ticker → List Ticker
  | [] => []
  | a :: l => if a ∈ seen then uniqueKeysAux seen l else a :: uniqueKeysAux (a :: seen) l

/-- `data.index.get_level_values(0).unique()`: the distinct tickers in first
occurrence order. -/
def uniqueKeys (data : MarketData) : List Ticker :=
  uniqueKeysAux [] (data.map Prod.fst)

/-- `data.loc[valid_tickers]`: the rows of each listed ticker, in list order. -/
def selectTickers (data : MarketData) (valid : List Ticker) : MarketData :=
  valid.filterMap (fun t => (lookupSeries data t).map (fun s => (t, s)))

/-! ### The five technical predicates (per-ticker bodies of the filter loops) -/

/-- Price floor body: latest close at least `MIN_PRICE`. -/
def pricePass (cfg : Config) (s : PriceSeries) : Bool :=
  decide (cfg.MIN_PRICE ≤ lastD s.close)

/-- Volume floor body: mean volume over the trailing 50 bars at least
`MIN_VOL_AVG`. -/
def volumePass (cfg : Config) (s : PriceSeries) : Bool :=
  decide (cfg.MIN_VOL_AVG ≤ mean (tailN 50 s.volume))

/-- Trend body: the 200-bar SMA is defined (`pd.notna`) and the latest close
is at least it. -/
def trendPass (cfg : Config) (s : PriceSeries) : Bool :=
  match smaLast cfg.MA_200_PERIOD s.close with
  | some m => decide (m ≤ lastD s.close)
  | none => false

/-- Near-high body: latest close at least `NEAR_HIGH_PCT` times the maximum
close of the trailing 252 bars. -/
def nearHighPass (cfg : Config) (s : PriceSeries) : Bool :=
  decide (maxD (tailN 252 s.close) * cfg.NEAR_HIGH_PCT ≤ lastD s.close)

/-- Relative-strength predicate as `apply_rs_filter` realises it: with an
empty benchmark the stage is skipped (everything passes); otherwise the
ticker return must strictly exceed the benchmark return. -/
def rsPass (spy : PriceSeries) (s : PriceSeries) : Bool :=
  spy.close.isEmpty || decide (return1y spy.close < return1y s.close)

/-! ### The five filters (`TechnicalFilter`) -/

/-- `TechnicalFilter.apply_price_filter`.  `groupby(level=0)` sorts the group
keys, so the surviving rows come out in sorted ticker order. -/
def apply_price_filter (cfg : Config) (data : MarketData) : MarketData :=
  if data.isEmpty then data
  else
    selectTickers data
      ((List.insertionSort (· ≤ ·) (uniqueKeys data)).filter
        (fun t => pricePass cfg (getSeries data t)))

/-- `TechnicalFilter.apply_volume_filter`: loop over the distinct tickers in
occurrence order, keep those passing `volumePass`. -/
def apply_volume_filter (cfg : Config) (data : MarketData) : MarketData :=
  if data.isEmpty then data
  else
    selectTickers data
      ((uniqueKeys data).filter (fun t => volumePass cfg (getSeries data t)))

/-- `TechnicalFilter.apply_trend_filter`. -/
def apply_trend_filter (cfg : Config) (data : MarketData) : MarketData :=
  if data.isEmpty then data
  else
    selectTickers data
      ((uniqueKeys data).filter (fun t => trendPass cfg (getSeries data t)))

/-- `TechnicalFilter.apply_near_high_filter`. -/
def apply_near_high_filter (cfg : Config) (data : MarketData) : MarketData :=
  if data.isEmpty then data
  else
    selectTickers data
      ((uniqueKeys data).filter (fun t => nearHighPass cfg (getSeries data t)))

/-- `TechnicalFilter.apply_rs_filter`: with empty data or an empty benchmark
the input is returned unchanged. -/
def apply_rs_filter (data : MarketData) (spy : PriceSeries) : MarketData :=
  if data.isEmpty || spy.close.isEmpty then data
  else
    selectTickers data
      ((uniqueKeys data).filter
        (fun t => decide (return1y spy.close < return1y (getSeries data t).close)))

/-- `TechnicalFilter.filter_all`: the five stages in sequence, with an early
empty return after each of the first four. -/
def filter_all (cfg : Config) (data : MarketData) (spy : PriceSeries) : List Ticker :=
  let d1 := apply_price_filter cfg data
  if d1.isEmpty then []
  else
    let d2 := apply_volume_filter cfg d1
    if d2.isEmpty then []
    else
      let d3 := apply_trend_filter cfg d2
      if d3.isEmpty then []
      else
        let d4 := apply_near_high_filter cfg d3
        if d4.isEmpty then []
        else
          let d5 := apply_rs_filter d4 spy
          if d5.isEmpty then [] else uniqueKeys d5

/-- The conjunction of the five per-ticker predicates, each evaluated
independently on the full input — the specification side of the
short-circuit-equivalence claim. -/
def passesAllFilters (cfg : Config) (spy : PriceSeries) (data : MarketData)
    (t : Ticker) : Bool :=
  pricePass cfg (getSeries data t) && volumePass cfg (getSeries data t) &&
    trendPass cfg (getSeries data t) && nearHighPass cfg (getSeries data t) &&
    rsPass spy (getSeries data t)

/-! ### `FundamentalFilter` -/

/-- The `financial_data` dict: keys may be absent, `roe` may be `None`, and
entries of the quarterly lists may be `None`. -/
structure FinancialData where
  quarterly_eps : Option (List (Option ℚ))
  quarterly_revenue : Option (List (Option ℚ))
  roe : Option ℚ
  sector : Option String
  industry : Option String
deriving DecidableEq

/-- Python truthiness of an optional numeric value: present and non-zero. -/
def valTruthy : Option ℚ → Bool
  | none => false
  | some x => decide (x ≠ 0)

/-- The year-over-year growth computation `check_current_earnings` performs
on one quarterly series (the EPS block and the revenue block are verbatim
copies of each other in the source). -/
def quarterlyGrowth : Option (List (Option ℚ)) → ℚ
  | none => 0
  | some l =>
    if l.isEmpty then 0
    else if 5 ≤ l.length then
      let current := l.getD 0 none
      let year_ago := l.getD 4 none
      if valTruthy year_ago && valTruthy current then
        (current.getD 0 - year_ago.getD 0) / |year_ago.getD 0|
      else 0
    else 0

/-- `FundamentalFilter.check_current_earnings`:
`(passes, eps_growth, revenue_growth)`. -/
def check_current_earnings (cfg : Config) (fd : FinancialData) : Bool × ℚ × ℚ :=
  let eps_growth := quarterlyGrowth fd.quarterly_eps
  let revenue_growth := quarterlyGrowth fd.quarterly_revenue
  (decide (cfg.EPS_GROWTH_THRESHOLD ≤ eps_growth) ||
     decide (cfg.REV_GROWTH_THRESHOLD ≤ revenue_growth),
   eps_growth, revenue_growth)

/-- `FundamentalFilter.check_annual_earnings`: `(passes, roe)`, with a
missing or `None` ROE read as `0.0`. -/
def check_annual_earnings (cfg : Config) (fd : FinancialData) : Bool × ℚ :=
  let roe := fd.roe.getD 0
  (decide (cfg.ROE_THRESHOLD ≤ roe), roe)

/-- The metrics dict `is_qualified` builds (`FinancialMetrics` fields in
`src/modules/models.py`). -/
structure GrowthMetrics where
  eps_growth_q : ℚ
  revenue_growth_q : ℚ
  roe : ℚ
  sector : String
  industry : String
deriving DecidableEq

/-- `FundamentalFilter.is_qualified`: `(qualified, metrics)`. -/
def is_qualified (cfg : Config) (fd : FinancialData) : Bool × GrowthMetrics :=
  let c := check_current_earnings cfg fd
  let a := check_annual_earnings cfg fd
  (c.1 && a.1,
   { eps_growth_q := c.2.1
     revenue_growth_q := c.2.2
     roe := a.2
     sector := fd.sector.getD "N/A"
     industry := fd.industry.getD "N/A" })

/-! ### `ExitStrategyCalculator` and `ExitStrategy` -/

/-- `ExitStrategyCalculator.calculate_profit_target`: the numeric content of
the returned dict (`target_price`); `ma_10` is only interpolated into the
condition/reason strings. -/
def calculate_profit_target (cfg : Config) (current_price ma_10 : ℚ) : ℚ :=
  current_price * (1 + cfg.PROFIT_TARGET_PCT)

/-- `ExitStrategyCalculator.calculate_stop_loss`: the numeric content of the
returned dict — `stop_price` and the 50-bar-MA secondary threshold
`ma_50_threshold` interpolated into `ma_stop_condition`. -/
def calculate_stop_loss (cfg : Config) (current_price ma_50 : ℚ) : ℚ × ℚ :=
  (current_price * (1 - cfg.STOP_LOSS_PCT), ma_50 * (1 - cfg.MA_STOP_LOSS_PCT))

/-- The `ExitStrategy` dataclass of `src/modules/models.py`. -/
structure ExitStrategy where
  profit_target_price : ℚ
  profit_condition : String
  profit_reason : String
  stop_loss_price : ℚ
  stop_loss_condition : String
  stop_loss_reason : String
deriving DecidableEq

/-- Construction of an `ExitStrategy` including the validation of
`ExitStrategy.__post_init__`: a negative price raises `ValueError`. -/
def mkExitStrategy (profit_target_price : ℚ) (profit_condition profit_reason : String)
    (stop_loss_price : ℚ) (stop_loss_condition stop_loss_reason : String) :
    Except String ExitStrategy :=
  if profit_target_price < 0 then
    .error "profit_target_price must be non-negative"
  else if stop_loss_price < 0 then
    .error "stop_loss_price must be non-negative"
  else
    .ok
      { profit_target_price := profit_target_price
        profit_condition := profit_condition
        profit_reason := profit_reason
        stop_loss_price := stop_loss_price
        stop_loss_condition := stop_loss_condition
        stop_loss_reason := stop_loss_reason }

/-! ### Concrete inputs used by witnesses and counterexamples -/

/-- 200 bars priced constantly at 10 with constant 300k volume over 250 bars:
passes every technical stage against a falling benchmark. -/
def goodSeries : PriceSeries :=
  ⟨List.replicate 200 (10 : ℚ), List.replicate 250 (300000 : ℚ)⟩

/-- A benchmark that lost half its value (1-year return −1/2). -/
def spyDown : PriceSeries := ⟨[10, 5], []⟩

/-- Two all-pass tickers listed in non-alphabetical order. -/
def cexData : MarketData := [("B", goodSeries), ("A", goodSeries)]

/-- An empty benchmark series. -/
def spyEmpty : PriceSeries := ⟨[], []⟩

/-- Quarterly EPS `[0.0, 1.0, 1.0, 1.0, 1.0]`: the newest quarter is present
but zero, the year-ago quarter is present and non-zero. -/
def zeroEpsFD : FinancialData :=
  { quarterly_eps := some [some 0, some 1, some 1, some 1, some 1]
    quarterly_revenue := none
    roe := none
    sector := none
    industry := none }

/-- The spec's worked example: EPS `[1.25, 1.10, 1.05, 1.00, 1.00]`. -/
def exampleFD : FinancialData :=
  { quarterly_eps := some [some (5/4), some (11/10), some (21/20), some 1, some 1]
    quarterly_revenue := some []
    roe := some (1/5)
    sector := some "Technology"
    industry := some "Software"
  }

/-! ### Series-primitive helper lemmas -/

theorem lastD_replicate {n : ℕ} (hn : n ≠ 0) (a : ℚ) :
    lastD (List.replicate n a) = a := by
  induction n with
  | zero => exact absurd rfl hn
  | succ m ih =>
    cases m with
    | zero => rfl
    | succ k =>
      rw [List.replicate_succ]
      simpa [lastD] using ih (Nat.succ_ne_zero k)

theorem firstD_replicate {n : ℕ} (hn : n ≠ 0) (a : ℚ) :
    firstD (List.replicate n a) = a := by
  cases n with
  | zero => exact absurd rfl hn
  | succ m => rfl

theorem mean_replicate {n : ℕ} (hn : n ≠ 0) (a : ℚ) :
    mean (List.replicate n a) = a := by
  have hq : (n : ℚ) ≠ 0 := Nat.cast_ne_zero.mpr hn
  simp only [mean, List.sum_replicate, List.length_replicate, nsmul_eq_mul]
  exact mul_div_cancel_left₀ a hq

theorem tailN_replicate (k n : ℕ) (a : ℚ) :
    tailN k (List.replicate n a) = List.replicate (min n k) a := by
  simp only [tailN, List.length_replicate, List.drop_replicate]
  congr 1
  omega

theorem maxD_replicate {n : ℕ} (hn : n ≠ 0) (a : ℚ) :
    maxD (List.replicate n a) = a := by
  cases n with
  | zero => exact absurd rfl hn
  | succ m =>
    rw [List.replicate_succ]
    show (List.replicate m a).foldl max a = a
    induction m with
    | zero => rfl
    | succ k ih => rw [List.replicate_succ]; simpa using ih

theorem return1y_replicate {n : ℕ} (hn : n ≠ 0) (a : ℚ) :
    return1y (List.replicate n a) = 0 := by
  simp [return1y, lastD_replicate hn, firstD_replicate hn]

/-! ### DataFrame-primitive helper lemmas -/

theorem isSome_lookupSeries {data : MarketData} {t : Ticker} :
    (lookupSeries data t).isSome ↔ t ∈ data.map Prod.fst := by
  simp only [lookupSeries, Option.isSome_map', List.find?_isSome, List.mem_map,
    beq_iff_eq]

theorem mem_uniqueKeysAux {t : Ticker} :
    ∀ {l seen : List Ticker}, t ∈ uniqueKeysAux seen l ↔ t ∈ l ∧ t ∉ seen := by
  intro l
  induction l with
  | nil => intro seen; simp [uniqueKeysAux]
  | cons a l ih =>
    intro seen
    by_cases h : a ∈ seen
    · rw [uniqueKeysAux, if_pos h, ih]
      constructor
      · rintro ⟨hl, hs⟩; exact ⟨List.mem_cons_of_mem a hl, hs⟩
      · rintro ⟨hor, hs⟩
        rcases List.mem_cons.mp hor with rfl | hl
        · exact absurd h hs
        · exact ⟨hl, hs⟩
    · rw [uniqueKeysAux, if_neg h]
      constructor
      · intro hm
        rcases List.mem_cons.mp hm with heq | hm
        · exact ⟨List.mem_cons.mpr (Or.inl heq), heq ▸ h⟩
        · obtain ⟨hl, hs⟩ := ih.mp hm
          refine ⟨List.mem_cons_of_mem a hl, fun hts => hs (List.mem_cons_of_mem a hts)⟩
      · rintro ⟨hor, hs⟩
        rcases List.mem_cons.mp hor with heq | hl
        · exact List.mem_cons.mpr (Or.inl heq)
        · by_cases hta : t = a
          · exact List.mem_cons.mpr (Or.inl hta)
          · refine List.mem_cons_of_mem a (ih.mpr ⟨hl, ?_⟩)
            intro hm
            rcases List.mem_cons.mp hm with h1 | h2
            · exact hta h1
            · exact hs h2

theorem nodup_uniqueKeysAux : ∀ (l seen : List Ticker), (uniqueKeysAux seen l).Nodup := by
  intro l
  induction l with
  | nil => intro seen; simp [uniqueKeysAux]
  | cons a l ih =>
    intro seen
    by_cases h : a ∈ seen
    · rw [uniqueKeysAux, if_pos h]; exact ih seen
    · rw [uniqueKeysAux, if_neg h]
      refine List.Nodup.cons ?_ (ih (a :: seen))
      intro hmem
      exact (mem_uniqueKeysAux.mp hmem).2 (List.mem_cons_self a seen)

theorem sublist_uniqueKeysAux : ∀ (l seen : List Ticker), (uniqueKeysAux seen l).Sublist l := by
  intro l
  induction l with
  | nil => intro seen; simp [uniqueKeysAux]
  | cons a l ih =>
    intro seen
    by_cases h : a ∈ seen
    · rw [uniqueKeysAux, if_pos h]; exact (ih seen).cons a
    · rw [uniqueKeysAux, if_neg h]; exact (ih (a :: seen)).cons₂ a

theorem mem_uniqueKeys {data : MarketData} {t : Ticker} :
    t ∈ uniqueKeys data ↔ t ∈ data.map Prod.fst := by
  simp [uniqueKeys, mem_uniqueKeysAux]

theorem nodup_uniqueKeys (data : MarketData) : (uniqueKeys data).Nodup :=
  nodup_uniqueKeysAux _ []

theorem sublist_uniqueKeys (data : MarketData) :
    (uniqueKeys data).Sublist (data.map Prod.fst) :=
  sublist_uniqueKeysAux _ []

theorem map_fst_selectTickers {data : MarketData} :
    ∀ {valid : List Ticker}, (∀ x ∈ valid, x ∈ data.map Prod.fst) →
      (selectTickers data valid).map Prod.fst = valid := by
  intro valid
  induction valid with
  | nil => intro _; rfl
  | cons a rest ih =>
    intro hv
    have ha : (lookupSeries data a).isSome :=
      isSome_lookupSeries.mpr (hv a (List.mem_cons_self a rest))
    obtain ⟨s, hs⟩ := Option.isSome_iff_exists.mp ha
    have hrest := ih fun x hx => hv x (List.mem_cons_of_mem a hx)
    simp only [selectTickers, List.filterMap_cons, hs, Option.map_some', List.map_cons]
    simpa [selectTickers] using hrest

theorem lookup_selectTickers {data : MarketData} {t : Ticker} :
    ∀ {valid : List Ticker}, (∀ x ∈ valid, x ∈ data.map Prod.fst) →
      lookupSeries (selectTickers data valid) t =
        if t ∈ valid then lookupSeries data t else none := by
  intro valid
  induction valid with
  | nil => intro _; simp [selectTickers, lookupSeries]
  | cons a rest ih =>
    intro hv
    have ha : (lookupSeries data a).isSome :=
      isSome_lookupSeries.mpr (hv a (List.mem_cons_self a rest))
    obtain ⟨s, hs⟩ := Option.isSome_iff_exists.mp ha
    have hrest := ih fun x hx => hv x (List.mem_cons_of_mem a hx)
    by_cases hta : t = a
    · subst hta
      simp only [selectTickers, List.filterMap_cons, hs, Option.map_some']
      rw [if_pos (List.mem_cons_self t rest)]
      unfold lookupSeries
      rw [List.find?_cons_of_pos _ (by simp)]
      simp [hs]
    · simp only [selectTickers, List.filterMap_cons, hs, Option.map_some']
      show lookupSeries ((a, s) :: selectTickers data rest) t =
        if t ∈ a :: rest then lookupSeries data t else none
      have step : lookupSeries ((a, s) :: selectTickers data rest) t =
          lookupSeries (selectTickers data rest) t := by
        unfold lookupSeries
        rw [List.find?_cons_of_neg _ (by simp [Ne.symm, hta])]
      rw [step, hrest]
      by_cases htr : t ∈ rest
      · rw [if_pos htr, if_pos (List.mem_cons_of_mem a htr)]
      · rw [if_neg htr, if_neg (by simp [hta, htr])]

theorem getSeries_selectTickers {data : MarketData} {valid : List Ticker} {t : Ticker}
    (hv : ∀ x ∈ valid, x ∈ data.map Prod.fst) (ht : t ∈ valid) :
    getSeries (selectTickers data valid) t = getSeries data t := by
  simp [getSeries, lookup_selectTickers hv, ht]

/-! ### Generic facts about the select-after-filter stage shape -/

theorem valid_subset_filter_uniqueKeys {data : MarketData} (p : Ticker → Bool) :
    ∀ x ∈ (uniqueKeys data).filter p, x ∈ data.map Prod.fst :=
  fun x hx => mem_uniqueKeys.mp (List.mem_of_mem_filter hx)

theorem map_fst_select_filter (data : MarketData) (p : Ticker → Bool) :
    (selectTickers data ((uniqueKeys data).filter p)).map Prod.fst =
      (uniqueKeys data).filter p :=
  map_fst_selectTickers (valid_subset_filter_uniqueKeys p)

theorem mem_select_filter {data : MarketData} {t : Ticker} (p : Ticker → Bool) :
    t ∈ (selectTickers data ((uniqueKeys data).filter p)).map Prod.fst ↔
      t ∈ data.map Prod.fst ∧ p t = true := by
  rw [map_fst_select_filter, List.mem_filter, mem_uniqueKeys]

theorem getSeries_select_filter {data : MarketData} {t : Ticker} (p : Ticker → Bool)
    (ht : t ∈ (selectTickers data ((uniqueKeys data).filter p)).map Prod.fst) :
    getSeries (selectTickers data ((uniqueKeys data).filter p)) t = getSeries data t := by
  rw [map_fst_select_filter] at ht
  exact getSeries_selectTickers (valid_subset_filter_uniqueKeys p) ht

/-! ### Per-filter stage equations -/

theorem apply_price_filter_eq (cfg : Config) (data : MarketData) :
    apply_price_filter cfg data =
      selectTickers data
        ((List.insertionSort (· ≤ ·) (uniqueKeys data)).filter
          (fun t => pricePass cfg (getSeries data t))) := by
  by_cases h : data.isEmpty
  · rw [List.isEmpty_iff.mp h]
    rfl
  · rw [apply_price_filter, if_neg (by simp [h])]

theorem apply_volume_filter_eq (cfg : Config) (data : MarketData) :
    apply_volume_filter cfg data =
      selectTickers data
        ((uniqueKeys data).filter (fun t => volumePass cfg (getSeries data t))) := by
  by_cases h : data.isEmpty
  · rw [List.isEmpty_iff.mp h]
    rfl
  · rw [apply_volume_filter, if_neg (by simp [h])]

theorem apply_trend_filter_eq (cfg : Config) (data : MarketData) :
    apply_trend_filter cfg data =
      selectTickers data
        ((uniqueKeys data).filter (fun t => trendPass cfg (getSeries data t))) := by
  by_cases h : data.isEmpty
  · rw [List.isEmpty_iff.mp h]
    rfl
  · rw [apply_trend_filter, if_neg (by simp [h])]

theorem apply_near_high_filter_eq (cfg : Config) (data : MarketData) :
    apply_near_high_filter cfg data =
      selectTickers data
        ((uniqueKeys data).filter (fun t => nearHighPass cfg (getSeries data t))) := by
  by_cases h : data.isEmpty
  · rw [List.isEmpty_iff.mp h]
    rfl
  · rw [apply_near_high_filter, if_neg (by simp [h])]

theorem apply_rs_filter_eq_of_spy_nonempty {spy : PriceSeries} (hspy : spy.close ≠ [])
    (data : MarketData) :
    apply_rs_filter data spy =
      selectTickers data
        ((uniqueKeys data).filter (fun t => rsPass spy (getSeries data t))) := by
  have hspyE : spy.close.isEmpty = false := by
    simpa [List.isEmpty_iff] using hspy
  have hpred : (fun t => rsPass spy (getSeries data t)) =
      fun t => decide (return1y spy.close < return1y (getSeries data t).close) := by
    funext t
    simp [rsPass, hspyE]
  by_cases h : data.isEmpty
  · rw [apply_rs_filter, if_pos (by simp [h]), List.isEmpty_iff.mp h]
    rfl
  · rw [apply_rs_filter, if_neg (by simp [h, hspyE]), hpred]

theorem apply_rs_filter_eq_of_spy_empty {spy : PriceSeries} (hspy : spy.close = [])
    (data : MarketData) : apply_rs_filter data spy = data := by
  rw [apply_rs_filter, if_pos (by simp [hspy])]

/-! ### Membership and series preservation per stage -/

theorem mem_apply_price_filter {cfg : Config} {data : MarketData} {t : Ticker} :
    t ∈ (apply_price_filter cfg data).map Prod.fst ↔
      t ∈ data.map Prod.fst ∧ pricePass cfg (getSeries data t) = true := by
  rw [apply_price_filter_eq,
    map_fst_selectTickers
      (fun x hx => mem_uniqueKeys.mp ((List.mem_insertionSort _).mp (List.mem_of_mem_filter hx))),
    List.mem_filter, List.mem_insertionSort, mem_uniqueKeys]

theorem getSeries_apply_price_filter {cfg : Config} {data : MarketData} {t : Ticker}
    (ht : t ∈ (apply_price_filter cfg data).map Prod.fst) :
    getSeries (apply_price_filter cfg data) t = getSeries data t := by
  rw [apply_price_filter_eq] at ht ⊢
  rw [map_fst_selectTickers
    (fun x hx => mem_uniqueKeys.mp ((List.mem_insertionSort _).mp (List.mem_of_mem_filter hx)))] at ht
  exact getSeries_selectTickers
    (fun x hx => mem_uniqueKeys.mp ((List.mem_insertionSort _).mp (List.mem_of_mem_filter hx))) ht

theorem mem_apply_volume_filter {cfg : Config} {data : MarketData} {t : Ticker} :
    t ∈ (apply_volume_filter cfg data).map Prod.fst ↔
      t ∈ data.map Prod.fst ∧ volumePass cfg (getSeries data t) = true := by
  rw [apply_volume_filter_eq]
  exact mem_select_filter _

theorem getSeries_apply_volume_filter {cfg : Config} {data : MarketData} {t : Ticker}
    (ht : t ∈ (apply_volume_filter cfg data).map Prod.fst) :
    getSeries (apply_volume_filter cfg data) t = getSeries data t := by
  rw [apply_volume_filter_eq] at ht ⊢
  exact getSeries_select_filter _ ht

theorem mem_apply_trend_filter {cfg : Config} {data : MarketData} {t : Ticker} :
    t ∈ (apply_trend_filter cfg data).map Prod.fst ↔
      t ∈ data.map Prod.fst ∧ trendPass cfg (getSeries data t) = true := by
  rw [apply_trend_filter_eq]
  exact mem_select_filter _

theorem getSeries_apply_trend_filter {cfg : Config} {data : MarketData} {t : Ticker}
    (ht : t ∈ (apply_trend_filter cfg data).map Prod.fst) :
    getSeries (apply_trend_filter cfg data) t = getSeries data t := by
  rw [apply_trend_filter_eq] at ht ⊢
  exact getSeries_select_filter _ ht

theorem mem_apply_near_high_filter {cfg : Config} {data : MarketData} {t : Ticker} :
    t ∈ (apply_near_high_filter cfg data).map Prod.fst ↔
      t ∈ data.map Prod.fst ∧ nearHighPass cfg (getSeries data t) = true := by
  rw [apply_near_high_filter_eq]
  exact mem_select_filter _

theorem getSeries_apply_near_high_filter {cfg : Config} {data : MarketData} {t : Ticker}
    (ht : t ∈ (apply_near_high_filter cfg data).map Prod.fst) :
    getSeries (apply_near_high_filter cfg data) t = getSeries data t := by
  rw [apply_near_high_filter_eq] at ht ⊢
  exact getSeries_select_filter _ ht

theorem mem_apply_rs_filter {data : MarketData} {spy : PriceSeries} {t : Ticker} :
    t ∈ (apply_rs_filter data spy).map Prod.fst ↔
      t ∈ data.map Prod.fst ∧ rsPass spy (getSeries data t) = true := by
  by_cases hspy : spy.close = []
  · rw [apply_rs_filter_eq_of_spy_empty hspy]
    have : ∀ s, rsPass spy s = true := by
      intro s
      simp [rsPass, hspy]
    simp [this]
  · rw [apply_rs_filter_eq_of_spy_nonempty hspy]
    exact mem_select_filter _

theorem getSeries_apply_rs_filter {data : MarketData} {spy : PriceSeries} {t : Ticker}
    (ht : t ∈ (apply_rs_filter data spy).map Prod.fst) :
    getSeries (apply_rs_filter data spy) t = getSeries data t := by
  by_cases hspy : spy.close = []
  · rw [apply_rs_filter_eq_of_spy_empty hspy]
  · rw [apply_rs_filter_eq_of_spy_nonempty hspy] at ht ⊢
    exact getSeries_select_filter _ ht

/-! ### Composing stages -/

theorem stage_compose {d0 d1 d2 : MarketData} {q1 : Ticker → Bool}
    {pass2 : PriceSeries → Bool}
    (m1 : ∀ u, u ∈ d1.map Prod.fst ↔ u ∈ d0.map Prod.fst ∧ q1 u = true)
    (g1 : ∀ u ∈ d1.map Prod.fst, getSeries d1 u = getSeries d0 u)
    (m2 : ∀ u, u ∈ d2.map Prod.fst ↔
      u ∈ d1.map Prod.fst ∧ pass2 (getSeries d1 u) = true)
    (g2 : ∀ u ∈ d2.map Prod.fst, getSeries d2 u = getSeries d1 u) :
    (∀ u, u ∈ d2.map Prod.fst ↔
        u ∈ d0.map Prod.fst ∧ (q1 u && pass2 (getSeries d0 u)) = true) ∧
      (∀ u ∈ d2.map Prod.fst, getSeries d2 u = getSeries d0 u) := by
  constructor
  · intro u
    rw [m2 u]
    constructor
    · rintro ⟨h1, h2⟩
      obtain ⟨h0, hq⟩ := (m1 u).mp h1
      rw [g1 u h1] at h2
      exact ⟨h0, by rw [Bool.and_eq_true]; exact ⟨hq, h2⟩⟩
    · rintro ⟨h0, hqp⟩
      rw [Bool.and_eq_true] at hqp
      have h1 := (m1 u).mpr ⟨h0, hqp.1⟩
      exact ⟨h1, by rw [g1 u h1]; exact hqp.2⟩
  · intro u hu
    have h1 : u ∈ d1.map Prod.fst := ((m2 u).mp hu).1
    rw [g2 u hu, g1 u h1]

theorem apply_volume_filter_nil (cfg : Config) : apply_volume_filter cfg [] = [] := rfl

theorem apply_trend_filter_nil (cfg : Config) : apply_trend_filter cfg [] = [] := rfl

theorem apply_near_high_filter_nil (cfg : Config) :
    apply_near_high_filter cfg [] = [] := rfl

theorem apply_rs_filter_nil (spy : PriceSeries) : apply_rs_filter [] spy = [] := rfl

/-- Membership in `filter_all` coincides with membership in the keys of the
fifth stage's output (the early empty returns are semantically inert). -/
theorem mem_filter_all_iff_stage5 (cfg : Config) (data : MarketData)
    (spy : PriceSeries) (u : Ticker) :
    u ∈ filter_all cfg data spy ↔
      u ∈ (apply_rs_filter
            (apply_near_high_filter cfg
              (apply_trend_filter cfg
                (apply_volume_filter cfg (apply_price_filter cfg data)))) spy).map
          Prod.fst := by
  simp only [filter_all]
  by_cases h1 : (apply_price_filter cfg data).isEmpty
  · rw [if_pos h1, List.isEmpty_iff.mp h1, apply_volume_filter_nil,
      apply_trend_filter_nil, apply_near_high_filter_nil, apply_rs_filter_nil]
    simp
  · rw [if_neg h1]
    by_cases h2 : (apply_volume_filter cfg (apply_price_filter cfg data)).isEmpty
    · rw [if_pos h2, List.isEmpty_iff.mp h2, apply_trend_filter_nil,
        apply_near_high_filter_nil, apply_rs_filter_nil]
      simp
    · rw [if_neg h2]
      by_cases h3 : (apply_trend_filter cfg
          (apply_volume_filter cfg (apply_price_filter cfg data))).isEmpty
      · rw [if_pos h3, List.isEmpty_iff.mp h3, apply_near_high_filter_nil,
          apply_rs_filter_nil]
        simp
      · rw [if_neg h3]
        by_cases h4 : (apply_near_high_filter cfg (apply_trend_filter cfg
            (apply_volume_filter cfg (apply_price_filter cfg data)))).isEmpty
        · rw [if_pos h4, List.isEmpty_iff.mp h4, apply_rs_filter_nil]
          simp
        · rw [if_neg h4]
          by_cases h5 : (apply_rs_filter (apply_near_high_filter cfg
              (apply_trend_filter cfg (apply_volume_filter cfg
                (apply_price_filter cfg data)))) spy).isEmpty
          · rw [if_pos h5, List.isEmpty_iff.mp h5]
            simp
          · rw [if_neg h5, mem_uniqueKeys]

/-- The combined membership characterisation of the five-stage pipeline. -/
theorem mem_filter_all (cfg : Config) (data : MarketData) (spy : PriceSeries)
    (t : Ticker) :
    t ∈ filter_all cfg data spy ↔
      t ∈ uniqueKeys data ∧ passesAllFilters cfg spy data t = true := by
  have S1 : (∀ u, u ∈ (apply_price_filter cfg data).map Prod.fst ↔
        u ∈ data.map Prod.fst ∧ pricePass cfg (getSeries data u) = true) ∧
      (∀ u ∈ (apply_price_filter cfg data).map Prod.fst,
        getSeries (apply_price_filter cfg data) u = getSeries data u) :=
    ⟨fun _ => mem_apply_price_filter, fun _ hu => getSeries_apply_price_filter hu⟩
  have S2 := stage_compose S1.1 S1.2
    (fun u => @mem_apply_volume_filter cfg (apply_price_filter cfg data) u)
    (fun u hu => @getSeries_apply_volume_filter cfg (apply_price_filter cfg data) u hu)
  have S3 := stage_compose S2.1 S2.2
    (fun u => @mem_apply_trend_filter cfg
      (apply_volume_filter cfg (apply_price_filter cfg data)) u)
    (fun u hu => @getSeries_apply_trend_filter cfg
      (apply_volume_filter cfg (apply_price_filter cfg data)) u hu)
  have S4 := stage_compose S3.1 S3.2
    (fun u => @mem_apply_near_high_filter cfg (apply_trend_filter cfg
      (apply_volume_filter cfg (apply_price_filter cfg data))) u)
    (fun u hu => @getSeries_apply_near_high_filter cfg (apply_trend_filter cfg
      (apply_volume_filter cfg (apply_price_filter cfg data))) u hu)
  have S5 := stage_compose S4.1 S4.2
    (fun u => @mem_apply_rs_filter (apply_near_high_filter cfg (apply_trend_filter cfg
      (apply_volume_filter cfg (apply_price_filter cfg data)))) spy u)
    (fun u hu => @getSeries_apply_rs_filter (apply_near_high_filter cfg
      (apply_trend_filter cfg (apply_volume_filter cfg
        (apply_price_filter cfg data)))) spy u hu)
  rw [mem_filter_all_iff_stage5, S5.1 t, mem_uniqueKeys, passesAllFilters]

/-- The keys surviving any stage of the select-after-filter shape are sorted
whenever the input's keys are. -/
theorem sorted_select_filter {data : MarketData}
    (hd : (data.map Prod.fst).Sorted (· ≤ ·)) (p : Ticker → Bool) :
    ((selectTickers data ((uniqueKeys data).filter p)).map Prod.fst).Sorted (· ≤ ·) := by
  rw [map_fst_select_filter]
  exact List.Pairwise.filter _ (List.Pairwise.sublist (sublist_uniqueKeys data) hd)

/-- `filter_all` always returns a list sorted in ascending ticker order: the
price stage's `groupby` sorts the keys, and every later stage preserves the
order of the rows it receives. -/
theorem sorted_filter_all (cfg : Config) (data : MarketData) (spy : PriceSeries) :
    (filter_all cfg data spy).Sorted (· ≤ ·) := by
  have s1 : ((apply_price_filter cfg data).map Prod.fst).Sorted (· ≤ ·) := by
    rw [apply_price_filter_eq, map_fst_selectTickers
      (fun x hx => mem_uniqueKeys.mp ((List.mem_insertionSort _).mp
        (List.mem_of_mem_filter hx)))]
    exact List.Pairwise.filter _ (List.sorted_insertionSort _ _)
  have s2 : ((apply_volume_filter cfg (apply_price_filter cfg data)).map
      Prod.fst).Sorted (· ≤ ·) := by
    rw [apply_volume_filter_eq]
    exact sorted_select_filter s1 _
  have s3 : ((apply_trend_filter cfg (apply_volume_filter cfg
      (apply_price_filter cfg data))).map Prod.fst).Sorted (· ≤ ·) := by
    rw [apply_trend_filter_eq]
    exact sorted_select_filter s2 _
  have s4 : ((apply_near_high_filter cfg (apply_trend_filter cfg
      (apply_volume_filter cfg (apply_price_filter cfg data)))).map
        Prod.fst).Sorted (· ≤ ·) := by
    rw [apply_near_high_filter_eq]
    exact sorted_select_filter s3 _
  have s5 : ((apply_rs_filter (apply_near_high_filter cfg (apply_trend_filter cfg
      (apply_volume_filter cfg (apply_price_filter cfg data)))) spy).map
        Prod.fst).Sorted (· ≤ ·) := by
    by_cases hspy : spy.close = []
    · rw [apply_rs_filter_eq_of_spy_empty hspy]
      exact s4
    · rw [apply_rs_filter_eq_of_spy_nonempty hspy]
      exact sorted_select_filter s4 _
  simp only [filter_all]
  by_cases h1 : (apply_price_filter cfg data).isEmpty
  · rw [if_pos h1]; exact List.sorted_nil
  · rw [if_neg h1]
    by_cases h2 : (apply_volume_filter cfg (apply_price_filter cfg data)).isEmpty
    · rw [if_pos h2]; exact List.sorted_nil
    · rw [if_neg h2]
      by_cases h3 : (apply_trend_filter cfg
          (apply_volume_filter cfg (apply_price_filter cfg data))).isEmpty
      · rw [if_pos h3]; exact List.sorted_nil
      · rw [if_neg h3]
        by_cases h4 : (apply_near_high_filter cfg (apply_trend_filter cfg
            (apply_volume_filter cfg (apply_price_filter cfg data)))).isEmpty
        · rw [if_pos h4]; exact List.sorted_nil
        · rw [if_neg h4]
          by_cases h5 : (apply_rs_filter (apply_near_high_filter cfg
              (apply_trend_filter cfg (apply_volume_filter cfg
                (apply_price_filter cfg data)))) spy).isEmpty
          · rw [if_pos h5]; exact List.sorted_nil
          · rw [if_neg h5]
            exact List.Pairwise.sublist (sublist_uniqueKeys _) s5

/-- `filter_all` never returns a duplicated ticker. -/
theorem nodup_filter_all (cfg : Config) (data : MarketData) (spy : PriceSeries) :
    (filter_all cfg data spy).Nodup := by
  simp only [filter_all]
  repeat' split
  all_goals first | exact List.nodup_nil | exact nodup_uniqueKeys _

/-! ### Concrete evaluations on the witness data -/

theorem goodSeries_close : goodSeries.close = List.replicate 200 (10 : ℚ) := rfl

theorem goodSeries_volume : goodSeries.volume = List.replicate 250 (300000 : ℚ) := rfl

theorem pricePass_goodSeries : pricePass defaultConfig goodSeries = true := by
  unfold pricePass
  rw [goodSeries_close, lastD_replicate (by norm_num)]
  norm_num [defaultConfig]

theorem volumePass_goodSeries : volumePass defaultConfig goodSeries = true := by
  unfold volumePass
  rw [goodSeries_volume, tailN_replicate, show min 250 50 = 50 from rfl,
    mean_replicate (by norm_num)]
  norm_num [defaultConfig]

theorem trendPass_goodSeries : trendPass defaultConfig goodSeries = true := by
  have hsma : smaLast 200 goodSeries.close = some 10 := by
    unfold smaLast
    rw [goodSeries_close, if_pos (by simp), tailN_replicate,
      show min 200 200 = 200 from rfl, mean_replicate (by norm_num)]
  unfold trendPass
  rw [show defaultConfig.MA_200_PERIOD = 200 from rfl, hsma, goodSeries_close,
    lastD_replicate (by norm_num)]
  norm_num

theorem nearHighPass_goodSeries : nearHighPass defaultConfig goodSeries = true := by
  unfold nearHighPass
  rw [goodSeries_close, tailN_replicate, show min 200 252 = 200 from rfl,
    maxD_replicate (by norm_num), lastD_replicate (by norm_num)]
  norm_num [defaultConfig]

theorem return1y_spyDown : return1y spyDown.close = -(1/2) := by
  unfold return1y
  rw [show lastD spyDown.close = 5 from rfl, show firstD spyDown.close = 10 from rfl]
  norm_num

theorem rsPass_goodSeries : rsPass spyDown goodSeries = true := by
  unfold rsPass
  rw [show spyDown.close.isEmpty = false from rfl, goodSeries_close,
    return1y_replicate (by norm_num), return1y_spyDown]
  norm_num

theorem getSeries_cexData_A : getSeries cexData "A" = goodSeries := by decide

theorem getSeries_cexData_B : getSeries cexData "B" = goodSeries := by decide

theorem passesAllFilters_goodSeries (t : Ticker)
    (ht : getSeries cexData t = goodSeries) :
    passesAllFilters defaultConfig spyDown cexData t = true := by
  unfold passesAllFilters
  rw [ht, pricePass_goodSeries, volumePass_goodSeries, trendPass_goodSeries,
    nearHighPass_goodSeries, rsPass_goodSeries]
  rfl

/-! ### `quarterlyGrowth` characterisation -/

theorem quarterlyGrowth_some (l : List (Option ℚ)) :
    quarterlyGrowth (some l) =
      if l.isEmpty = true then 0
      else if 5 ≤ l.length then
        if (valTruthy (l.getD 4 none) && valTruthy (l.getD 0 none)) = true then
          ((l.getD 0 none).getD 0 - (l.getD 4 none).getD 0) / |(l.getD 4 none).getD 0|
        else 0
      else 0 := rfl

theorem quarterlyGrowth_formula {l : List (Option ℚ)} {a b : ℚ}
    (hlen : 5 ≤ l.length) (h0 : l.getD 0 none = some a) (h4 : l.getD 4 none = some b)
    (ha : a ≠ 0) (hb : b ≠ 0) :
    quarterlyGrowth (some l) = (a - b) / |b| := by
  have hne : l.isEmpty = false := by
    cases l with
    | nil => simp at hlen
    | cons x xs => rfl
  rw [quarterlyGrowth_some, hne]
  simp only [Bool.false_eq_true, if_false, if_pos hlen, h0, h4]
  rw [if_pos (by simp [valTruthy, ha, hb])]
  simp

theorem quarterlyGrowth_zero {l : List (Option ℚ)}
    (h : l.length < 5 ∨ l.getD 0 none = none ∨ l.getD 0 none = some 0 ∨
      l.getD 4 none = none ∨ l.getD 4 none = some 0) :
    quarterlyGrowth (some l) = 0 := by
  rw [quarterlyGrowth_some]
  by_cases hne : l.isEmpty
  · rw [if_pos hne]
  · rw [if_neg hne]
    by_cases hlen : 5 ≤ l.length
    · rw [if_pos hlen, if_neg]
      rw [Bool.and_eq_true, not_and]
      intro h4 h0
      rcases h with h | h | h | h | h
      · omega
      · rw [h] at h0; simp [valTruthy] at h0
      · rw [h] at h0; simp [valTruthy] at h0
      · rw [h] at h4; simp [valTruthy] at h4
      · rw [h] at h4; simp [valTruthy] at h4
    · rw [if_neg hlen]

theorem quarterlyGrowth_none : quarterlyGrowth none = 0 := rfl

/-! ### Claim theorems -/

/-- C1: for every input of (ticker, series) pairs and benchmark series, the
ticker set returned by the five-stage sequential `filter_all` (with its
short-circuit early returns) equals the set of tickers of the input that
satisfy all five filter predicates evaluated independently on the full
input. -/
theorem filter_all_eq_independent_predicates (cfg : Config) (data : MarketData)
    (spy : PriceSeries) (t : Ticker) :
    t ∈ filter_all cfg data spy ↔
      t ∈ uniqueKeys data ∧ passesAllFilters cfg spy data t = true :=
  mem_filter_all cfg data spy t

/-- C3 counterexample: with the two all-passing tickers supplied in the order
`["B", "A"]`, `filter_all` returns `["A", "B"]` — the pandas `groupby` in the
price stage sorts the tickers, so the output is not a subsequence of the
input order and relative input order is not preserved. -/
theorem filter_all_not_input_order :
    cexData.map Prod.fst = ["B", "A"] ∧
    filter_all defaultConfig cexData spyDown = ["A", "B"] ∧
    ¬ List.Sublist (filter_all defaultConfig cexData spyDown)
        (cexData.map Prod.fst) := by
  have huniq : uniqueKeys cexData = ["B", "A"] := by decide
  have hmem : ∀ u, u ∈ filter_all defaultConfig cexData spyDown ↔
      u ∈ (["B", "A"] : List Ticker) := by
    intro u
    rw [mem_filter_all, huniq]
    constructor
    · exact fun h => h.1
    · intro hu
      refine ⟨hu, ?_⟩
      rcases List.mem_cons.mp hu with rfl | hu2
      · exact passesAllFilters_goodSeries _ getSeries_cexData_B
      · rcases List.mem_cons.mp hu2 with rfl | hu3
        · exact passesAllFilters_goodSeries _ getSeries_cexData_A
        · simp at hu3
  have hperm : (filter_all defaultConfig cexData spyDown).Perm ["A", "B"] := by
    have h1 : (filter_all defaultConfig cexData spyDown).Perm ["B", "A"] :=
      (List.perm_ext_iff_of_nodup (nodup_filter_all _ _ _) (by decide)).mpr hmem
    exact h1.trans (by decide)
  have hAB : ("A" : String) ≤ "B" := by
    rw [String.le_iff_toList_le]; decide
  have heq : filter_all defaultConfig cexData spyDown = ["A", "B"] :=
    List.eq_of_perm_of_sorted hperm (sorted_filter_all _ _ _)
      (by simp only [List.sorted_cons, List.mem_singleton, List.sorted_singleton,
            and_true, forall_eq]
          exact ⟨hAB, by simp, List.sorted_nil⟩)
  refine ⟨rfl, heq, ?_⟩
  rw [heq, show cexData.map Prod.fst = ["B", "A"] from rfl]
  decide

/-- C3 amended: the ticker list returned by `filter_all` is always sorted in
ascending lexicographic ticker order (the price stage's `groupby` sorts the
group keys and every later stage preserves row order), rather than
preserving the relative order of the input. -/
theorem filter_all_output_sorted (cfg : Config) (data : MarketData)
    (spy : PriceSeries) : (filter_all cfg data spy).Sorted (· ≤ ·) :=
  sorted_filter_all cfg data spy

/-- C4: the trend filter keeps a ticker of the input iff its series has at
least 200 bars and its latest close is at least the mean of the last 200
closes; in particular any ticker with fewer than 200 bars is dropped. -/
theorem trend_filter_spec (data : MarketData) (t : Ticker) :
    t ∈ (apply_trend_filter defaultConfig data).map Prod.fst ↔
      t ∈ data.map Prod.fst ∧ 200 ≤ (getSeries data t).close.length ∧
        mean (tailN 200 (getSeries data t).close) ≤ lastD (getSeries data t).close := by
  rw [mem_apply_trend_filter]
  have hchar : ∀ s : PriceSeries, trendPass defaultConfig s = true ↔
      200 ≤ s.close.length ∧ mean (tailN 200 s.close) ≤ lastD s.close := by
    intro s
    unfold trendPass smaLast
    rw [show defaultConfig.MA_200_PERIOD = 200 from rfl]
    by_cases h : 200 ≤ s.close.length
    · rw [if_pos h]
      simp [h]
    · rw [if_neg h]
      simp [h]
  rw [hchar]

/-- C5: with a non-empty benchmark series, the relative-strength filter keeps
a ticker of the input iff its return `(last − first)/first` strictly exceeds
the benchmark's return computed the same way; a ticker whose return exactly
equals the benchmark's is excluded. -/
theorem rs_filter_strict (data : MarketData) (spy : PriceSeries) (t : Ticker)
    (hspy : spy.close ≠ []) :
    (t ∈ (apply_rs_filter data spy).map Prod.fst ↔
      t ∈ data.map Prod.fst ∧
        return1y spy.close < return1y (getSeries data t).close) ∧
    (return1y (getSeries data t).close = return1y spy.close →
      t ∉ (apply_rs_filter data spy).map Prod.fst) := by
  have hpass : ∀ s : PriceSeries, rsPass spy s = true ↔
      return1y spy.close < return1y s.close := by
    intro s
    simp [rsPass, List.isEmpty_iff, hspy]
  constructor
  · rw [@mem_apply_rs_filter data spy t, hpass]
  · intro heq hmem
    have hlt := (hpass _).mp (((@mem_apply_rs_filter data spy t).mp hmem).2)
    rw [heq] at hlt
    exact lt_irrefl _ hlt

/-- C5 witness: with the falling benchmark `spyDown` and a ticker whose
series equals the benchmark's (identical return), the theorem instantiates
and the ticker is excluded. -/
theorem rs_filter_strict_witness :
    spyDown.close ≠ [] ∧
      "X" ∉ (apply_rs_filter [("X", spyDown)] spyDown).map Prod.fst := by
  have H := rs_filter_strict [("X", spyDown)] spyDown "X"
    (by simp [spyDown])
  exact ⟨by simp [spyDown],
    H.2 (by rw [show getSeries [("X", spyDown)] "X" = spyDown from by decide])⟩

/-- C6: the set of tickers passing the price floor is antitone in the
`MIN_PRICE` threshold — every ticker passing at the higher threshold also
passes at the lower one. -/
theorem price_filter_antitone (cfg : Config) (t1 t2 : ℚ) (h12 : t1 ≤ t2)
    (data : MarketData) (tk : Ticker)
    (hmem : tk ∈ (apply_price_filter { cfg with MIN_PRICE := t2 } data).map Prod.fst) :
    tk ∈ (apply_price_filter { cfg with MIN_PRICE := t1 } data).map Prod.fst := by
  rw [mem_apply_price_filter] at hmem ⊢
  refine ⟨hmem.1, ?_⟩
  have h2 : t2 ≤ lastD (getSeries data tk).close := of_decide_eq_true hmem.2
  exact decide_eq_true (le_trans h12 h2)

/-- C6 witness: at thresholds 5 ≤ 10, the ticker passing at 10 also passes
at 5. -/
theorem price_filter_antitone_witness :
    (5 : ℚ) ≤ 10 ∧
      "A" ∈ (apply_price_filter { defaultConfig with MIN_PRICE := (5 : ℚ) }
        [("A", PriceSeries.mk [12] [0])]).map Prod.fst := by
  refine ⟨by norm_num, ?_⟩
  refine price_filter_antitone defaultConfig 5 10 (by norm_num)
    [("A", PriceSeries.mk [12] [0])] "A" ?_
  exact mem_apply_price_filter.mpr ⟨by decide, by decide⟩

/-- C10: when the benchmark series is empty, the relative-strength filter
returns its non-empty candidate input unchanged. -/
theorem rs_filter_empty_benchmark (data : MarketData) (spy : PriceSeries)
    (hspy : spy.close = []) (hdata : data ≠ []) :
    apply_rs_filter data spy = data :=
  apply_rs_filter_eq_of_spy_empty hspy data

/-- C10 witness: the empty benchmark leaves the two-ticker candidate set
untouched. -/
theorem rs_filter_empty_benchmark_witness :
    spyEmpty.close = [] ∧ cexData ≠ [] ∧
      apply_rs_filter cexData spyEmpty = cexData := by
  refine ⟨rfl, by simp [cexData], ?_⟩
  exact rs_filter_empty_benchmark cexData spyEmpty rfl (by simp [cexData])

/-- C2 counterexample: quarterly EPS `[0.0, 1.0, 1.0, 1.0, 1.0]` has at
least 5 values, `eps[4] = 1` present and non-zero, and `eps[0] = 0.0`
present, so the claim's rule gives growth `(0 − 1)/|1| = −1`; the code's
truthiness test on `current_eps` also rejects a present-but-zero newest
quarter and returns growth `0.0` instead. -/
theorem current_earnings_zero_newest_cex :
    (check_current_earnings defaultConfig zeroEpsFD).2.1 = 0 ∧
    ((0 : ℚ) - 1) / |(1 : ℚ)| = -1 ∧ (0 : ℚ) ≠ -1 := by
  refine ⟨?_, by norm_num, by norm_num⟩
  show quarterlyGrowth (some [some 0, some 1, some 1, some 1, some 1]) = 0
  exact quarterlyGrowth_zero (by right; right; left; rfl)

/-- C2 amended: EPS growth is `(eps[0] − eps[4]) / |eps[4]|` exactly when the
series has at least 5 values and both `eps[4]` and `eps[0]` are present and
non-zero; in every other case (absent key, fewer than 5 values, an absent or
zero entry at index 0 or 4) growth is 0.0.  Revenue growth follows the same
rule, and the check passes iff either growth is at least 0.20. -/
theorem check_current_earnings_spec (fd : FinancialData) :
    (∀ l : List (Option ℚ), ∀ a b : ℚ, fd.quarterly_eps = some l →
        5 ≤ l.length → l.getD 0 none = some a → l.getD 4 none = some b →
        a ≠ 0 → b ≠ 0 →
        (check_current_earnings defaultConfig fd).2.1 = (a - b) / |b|) ∧
    (∀ l : List (Option ℚ), fd.quarterly_eps = some l →
        (l.length < 5 ∨ l.getD 0 none = none ∨ l.getD 0 none = some 0 ∨
          l.getD 4 none = none ∨ l.getD 4 none = some 0) →
        (check_current_earnings defaultConfig fd).2.1 = 0) ∧
    (fd.quarterly_eps = none → (check_current_earnings defaultConfig fd).2.1 = 0) ∧
    (∀ l : List (Option ℚ), ∀ a b : ℚ, fd.quarterly_revenue = some l →
        5 ≤ l.length → l.getD 0 none = some a → l.getD 4 none = some b →
        a ≠ 0 → b ≠ 0 →
        (check_current_earnings defaultConfig fd).2.2 = (a - b) / |b|) ∧
    (∀ l : List (Option ℚ), fd.quarterly_revenue = some l →
        (l.length < 5 ∨ l.getD 0 none = none ∨ l.getD 0 none = some 0 ∨
          l.getD 4 none = none ∨ l.getD 4 none = some 0) →
        (check_current_earnings defaultConfig fd).2.2 = 0) ∧
    (fd.quarterly_revenue = none → (check_current_earnings defaultConfig fd).2.2 = 0) ∧
    ((check_current_earnings defaultConfig fd).1 = true ↔
      (0.20 : ℚ) ≤ (check_current_earnings defaultConfig fd).2.1 ∨
        (0.20 : ℚ) ≤ (check_current_earnings defaultConfig fd).2.2) := by
  have he : (check_current_earnings defaultConfig fd).2.1 =
      quarterlyGrowth fd.quarterly_eps := rfl
  have hr : (check_current_earnings defaultConfig fd).2.2 =
      quarterlyGrowth fd.quarterly_revenue := rfl
  refine ⟨?_, ?_, ?_, ?_, ?_, ?_, ?_⟩
  · intro l a b hl hlen h0 h4 ha hb
    rw [he, hl]
    exact quarterlyGrowth_formula hlen h0 h4 ha hb
  · intro l hl hz
    rw [he, hl]
    exact quarterlyGrowth_zero hz
  · intro hl
    rw [he, hl, quarterlyGrowth_none]
  · intro l a b hl hlen h0 h4 ha hb
    rw [hr, hl]
    exact quarterlyGrowth_formula hlen h0 h4 ha hb
  · intro l hl hz
    rw [hr, hl]
    exact quarterlyGrowth_zero hz
  · intro hl
    rw [hr, hl, quarterlyGrowth_none]
  · show (decide ((0.20 : ℚ) ≤ quarterlyGrowth fd.quarterly_eps) ||
      decide ((0.20 : ℚ) ≤ quarterlyGrowth fd.quarterly_revenue)) = true ↔ _
    rw [Bool.or_eq_true, decide_eq_true_eq, decide_eq_true_eq, he, hr]

/-- C2 witness: the spec's worked example
`eps = [1.25, 1.10, 1.05, 1.00, 1.00]` yields growth `(5/4 − 1)/|1| = 1/4`
and the check passes. -/
theorem check_current_earnings_spec_witness :
    (check_current_earnings defaultConfig exampleFD).2.1 = ((5/4 : ℚ) - 1) / |(1 : ℚ)| ∧
    (check_current_earnings defaultConfig exampleFD).1 = true := by
  have H := check_current_earnings_spec exampleFD
  have hg := H.1 [some (5/4), some (11/10), some (21/20), some 1, some 1]
    (5/4) 1 rfl (by norm_num) rfl rfl (by norm_num) (by norm_num)
  refine ⟨hg, ?_⟩
  rw [H.2.2.2.2.2.2, hg]
  left
  norm_num

/-- C7: `is_qualified` returns the conjunction of the current-earnings and
annual-earnings checks; the annual check passes iff ROE (absent treated as
0.0) is at least 0.15, and the metrics record is always produced from the
checks' outputs whether or not qualification succeeds. -/
theorem is_qualified_spec (fd : FinancialData) :
    (is_qualified defaultConfig fd).1 =
      ((check_current_earnings defaultConfig fd).1 &&
        (check_annual_earnings defaultConfig fd).1) ∧
    ((check_annual_earnings defaultConfig fd).1 = true ↔
      (0.15 : ℚ) ≤ fd.roe.getD 0) ∧
    (is_qualified defaultConfig fd).2 =
      { eps_growth_q := (check_current_earnings defaultConfig fd).2.1
        revenue_growth_q := (check_current_earnings defaultConfig fd).2.2
        roe := fd.roe.getD 0
        sector := fd.sector.getD "N/A"
        industry := fd.industry.getD "N/A" } := by
  refine ⟨rfl, ?_, rfl⟩
  show decide ((0.15 : ℚ) ≤ fd.roe.getD 0) = true ↔ _
  rw [decide_eq_true_eq]

/-- C8: the exit levels are exact — `target = price × (1 + 0.20)`,
`stop = price × (1 − 0.07)`, secondary threshold `= ma_50 × (1 − 0.03)`;
at price 100.0 the target is exactly 120.0 and the stop exactly 93.0, and
at `ma_50 = 90.0` the secondary threshold is exactly 87.3. -/
theorem exit_levels_exact (p m10 m50 : ℚ) :
    calculate_profit_target defaultConfig p m10 = p * (1 + 0.20) ∧
    (calculate_stop_loss defaultConfig p m50).1 = p * (1 - 0.07) ∧
    (calculate_stop_loss defaultConfig p m50).2 = m50 * (1 - 0.03) ∧
    calculate_profit_target defaultConfig 100 95 = 120 ∧
    (calculate_stop_loss defaultConfig 100 90).1 = 93 ∧
    (calculate_stop_loss defaultConfig 100 90).2 = 87.3 := by
  refine ⟨rfl, rfl, rfl, ?_, ?_, ?_⟩ <;>
    norm_num [calculate_profit_target, calculate_stop_loss, defaultConfig]

/-- C9: constructing an `ExitStrategy` succeeds iff both prices are
non-negative; a negative profit target or stop price raises, and every
successfully built record carries non-negative prices. -/
theorem mkExitStrategy_spec (ptp slp : ℚ) (pc pr slc slr : String) :
    ((∃ es, mkExitStrategy ptp pc pr slp slc slr = Except.ok es) ↔
      0 ≤ ptp ∧ 0 ≤ slp) ∧
    ((ptp < 0 ∨ slp < 0) →
      ∃ msg, mkExitStrategy ptp pc pr slp slc slr = Except.error msg) ∧
    (∀ es, mkExitStrategy ptp pc pr slp slc slr = Except.ok es →
      0 ≤ es.profit_target_price ∧ 0 ≤ es.stop_loss_price) := by
  unfold mkExitStrategy
  by_cases h1 : ptp < 0
  · rw [if_pos h1]
    refine ⟨?_, fun _ => ⟨_, rfl⟩, fun es hes => by cases hes⟩
    constructor
    · rintro ⟨es, hes⟩; cases hes
    · rintro ⟨h0, _⟩; exact absurd h0 (not_le.mpr h1)
  · rw [if_neg h1]
    by_cases h2 : slp < 0
    · rw [if_pos h2]
      refine ⟨?_, fun _ => ⟨_, rfl⟩, fun es hes => by cases hes⟩
      constructor
      · rintro ⟨es, hes⟩; cases hes
      · rintro ⟨_, h0⟩; exact absurd h0 (not_le.mpr h2)
    · rw [if_neg h2]
      push_neg at h1 h2
      refine ⟨?_, ?_, ?_⟩
      · exact ⟨fun _ => ⟨h1, h2⟩, fun _ => ⟨_, rfl⟩⟩
      · rintro (h | h)
        · exact absurd h (not_lt.mpr h1)
        · exact absurd h (not_lt.mpr h2)
      · intro es hes
        cases hes
        exact ⟨h1, h2⟩

/-- C9 witness: `(120, 93)` constructs successfully with non-negative fields;
`(−1, 93)` is rejected. -/
theorem mkExitStrategy_spec_witness :
    (∃ es, mkExitStrategy 120 "c" "r" 93 "c" "r" = Except.ok es) ∧
    (∃ msg, mkExitStrategy (-1) "c" "r" 93 "c" "r" = Except.error msg) ∧
    (0 : ℚ) ≤ 120 ∧ (0 : ℚ) ≤ 93 := by
  refine ⟨?_, ?_, by norm_num, by norm_num⟩
  · exact (mkExitStrategy_spec 120 93 "c" "r" "c" "r").1.mpr ⟨by norm_num, by norm_num⟩
  · exact (mkExitStrategy_spec (-1) 93 "c" "r" "c" "r").2.1 (Or.inl (by norm_num))

end CanSlim
